import Mathlib

/-!
Shallow embedding of `bridging-architecture/validation/validate-and-repair.py`
(class `MetabaseBridgeValidator`).

Modelling choices:
* The filesystem under `base_path` is a `FS` value: a list of existing
  directories, a list of files with their contents, and lists of paths on
  which read or write/mkdir operations raise an OS error (permission denied,
  is-a-directory, ...).  Paths are lists of segments relative to `base_path`.
* The mutable object state (`self.validation_results`, `self.repairs_applied`,
  `self.issues_found`) together with the filesystem form a `State`; every
  method is a function `State → State × Option String`, where `some e` means
  the Python method raised an uncaught exception `e` after mutating the state
  to the returned value (exceptions abort a loop mid-way, keeping the
  mutations already performed, exactly as the Python object would).
* `time.time()` timestamps carry no information for any claim and are omitted
  from the records.
* Python f-string issue descriptions become an inductive `IssueDesc`, one
  constructor per `record_issue` call site, carrying the interpolated data.
* Float arithmetic in `calculate_overall_health` is modelled over `ℚ`.
-/

namespace ValidateAndRepair

abbrev Path := List String

/-- The artifact tree under `base_path`, plus which paths fail on read and
which fail on mkdir/write (the OS-permission model). -/
structure FS where
  dirs : List Path
  files : List (Path × String)
  deniedRead : List Path
  deniedWrite : List Path
deriving DecidableEq

/-- `Path.exists()` in the source: true for a directory entry or a file entry. -/
def pathExists (fs : FS) (p : Path) : Bool :=
  fs.dirs.contains p || (fs.files.map Prod.fst).contains p

/-- `open(p).read()`: errors when reading is denied, or when `p` is not a
file (missing, or a directory). -/
def readFile (fs : FS) (p : Path) : Except String String :=
  if fs.deniedRead.contains p then .error "PermissionError"
  else
    match fs.files.lookup p with
    | some c => .ok c
    | none => .error "NotAFileError"

/-- The nonempty prefixes of a path: the path itself and all its ancestors. -/
def pathPrefixes (p : Path) : List Path :=
  (List.range p.length).map (fun i => p.take (i + 1))

/-- `p.mkdir(parents=True, exist_ok=True)`: creates every missing ancestor
and the directory itself; raises when any of them is write-denied. -/
def mkdirParents (fs : FS) (p : Path) : Except String FS :=
  if (pathPrefixes p).any (fun q => fs.deniedWrite.contains q) then
    .error "PermissionError"
  else
    .ok { fs with dirs := fs.dirs ++ (pathPrefixes p).filter (fun q => !(pathExists fs q)) }

/-- `open(p, 'w').write(content)`: raises when `p` is write-denied. -/
def writeFile (fs : FS) (p : Path) (content : String) : Except String FS :=
  if fs.deniedWrite.contains p then .error "PermissionError"
  else .ok { fs with files := (p, content) :: fs.files.filter (fun e => !(e.1 == p)) }

/-- `"sub" in s` for Python strings, on the character lists. -/
def containsSub (sub : List Char) : List Char → Bool
  | [] => sub.isEmpty
  | c :: t => sub.isPrefixOf (c :: t) || containsSub sub t

/-- Python's `sub in s` substring test. -/
def strContains (s sub : String) : Bool := containsSub sub.data s.data

/-- One constructor per `record_issue` call site, carrying the f-string data. -/
inductive IssueDesc
  | packageSwiftMissing
  | missingPackageElements (elems : List String)
  | metabaseBridgeMissing
  | packageValidationError (e : String)
  | dockerfileMissing
  | containerizationIssues
  | metabaseBridgeSwiftMissing
  | missingApiEndpoints (endpoints : List String)
  | missingComponents (components : List String)
deriving DecidableEq

structure Issue where
  desc : IssueDesc
  severity : String
  solution : String
deriving DecidableEq

structure VRecord where
  status : String
  message : String
deriving DecidableEq

/-- The validator object's mutable state plus the filesystem it acts on. -/
structure State where
  fs : FS
  validation_results : List (String × VRecord)
  repairs_applied : List String
  issues_found : List Issue
deriving DecidableEq

/-- `record_validation`: dict assignment — overwrite in place when the
component key is present, append otherwise. -/
def record_validation (s : State) (component status message : String) : State :=
  let vr :=
    if (s.validation_results.map Prod.fst).contains component then
      s.validation_results.map
        (fun e => if e.1 == component then (component, (⟨status, message⟩ : VRecord)) else e)
    else s.validation_results ++ [(component, (⟨status, message⟩ : VRecord))]
  { s with validation_results := vr }

/-- `record_issue`: append to the issue sequence. -/
def record_issue (s : State) (d : IssueDesc) (severity solution : String) : State :=
  { s with issues_found := s.issues_found ++ [⟨d, severity, solution⟩] }

def packageSwiftPath : Path := ["swift-package", "Package.swift"]
def dockerfilePath : Path := ["containerization", "Dockerfile.bridge"]
def metabaseBridgePath : Path :=
  ["swift-package", "Sources", "MetabaseBridge", "MetabaseBridge.swift"]
def appleEcosystemBridgePath : Path :=
  ["swift-package", "Sources", "AppleEcosystemBridge", "AppleEcosystemBridge.swift"]
def nodeJSBridgePath : Path :=
  ["swift-package", "Sources", "NodeJSBridge", "NodeJSBridge.swift"]

def required_elements : List String := ["name:", "platforms:", "dependencies:", "targets:"]

/-- `validate_swift_package_structure`: two rules (`swift_package_structure`,
`metabase_bridge_component`); the whole read-and-check body sits inside
`try/except Exception`, so a read failure becomes a HIGH issue. -/
def validate_swift_package_structure (s : State) : State × Option String :=
  if !(pathExists s.fs packageSwiftPath) then
    (record_issue s .packageSwiftMissing "CRITICAL" "Create Package.swift", none)
  else
    match readFile s.fs packageSwiftPath with
    | .error e =>
      (record_issue s (.packageValidationError e) "HIGH" "Fix Package.swift syntax", none)
    | .ok content =>
      let missing_elements := required_elements.filter (fun el => !(strContains content el))
      let s1 :=
        if missing_elements.isEmpty then
          record_validation s "swift_package_structure" "PASSED" "Package structure is valid"
        else
          record_issue s (.missingPackageElements missing_elements) "HIGH"
            "Add missing package elements"
      let s2 :=
        if strContains content "MetabaseBridge" then
          record_validation s1 "metabase_bridge_component" "PASSED"
            "MetabaseBridge component present"
        else
          record_issue s1 .metabaseBridgeMissing "HIGH" "Add MetabaseBridge component"
      (s2, none)

/-- The `dockerfile_checks` message list built by `validate_containerization`. -/
def dockerfile_checks (content : String) : List String :=
  [ if strContains content "FROM swift:5.9-focal as builder" then
      "Multi-stage build configured" else "Multi-stage build missing",
    if strContains content "USER metabase" then
      "Non-root user configured" else "Non-root user missing",
    if strContains content "HEALTHCHECK" then
      "Health check configured" else "Health check missing",
    if strContains content "EXPOSE 3000" then
      "Metabase port properly exposed" else "Metabase port exposure missing" ]

/-- `validate_containerization`: no try/except — a read failure propagates. -/
def validate_containerization (s : State) : State × Option String :=
  if !(pathExists s.fs dockerfilePath) then
    (record_issue s .dockerfileMissing "CRITICAL" "Create containerization/Dockerfile.bridge",
     none)
  else
    match readFile s.fs dockerfilePath with
    | .error e => (s, some e)
    | .ok content =>
      if (dockerfile_checks content).all (fun check => strContains check "configured") then
        (record_validation s "containerization" "PASSED"
          "Containerization is properly configured", none)
      else
        (record_issue s .containerizationIssues "HIGH" "Fix Dockerfile configuration", none)

def required_endpoints : List String :=
  ["/health", "/api/v1/metrics", "/api/v1/metabase/process"]

/-- `validate_api_alignment`: no try/except — a read failure propagates. -/
def validate_api_alignment (s : State) : State × Option String :=
  if !(pathExists s.fs metabaseBridgePath) then
    (record_issue s .metabaseBridgeSwiftMissing "HIGH" "Create MetabaseBridge implementation",
     none)
  else
    match readFile s.fs metabaseBridgePath with
    | .error e => (s, some e)
    | .ok content =>
      let missing_endpoints := required_endpoints.filter (fun ep => !(strContains content ep))
      if missing_endpoints.isEmpty then
        (record_validation s "api_alignment" "PASSED" "All required API endpoints referenced",
         none)
      else
        (record_issue s (.missingApiEndpoints missing_endpoints) "MEDIUM"
          "Implement missing API endpoints", none)

def required_components : List (String × Path) :=
  [("MetabaseBridge.swift", metabaseBridgePath),
   ("AppleEcosystemBridge.swift", appleEcosystemBridgePath),
   ("NodeJSBridge.swift", nodeJSBridgePath)]

/-- `validate_integration_components`: existence checks only. -/
def validate_integration_components (s : State) : State × Option String :=
  let missing_components :=
    (required_components.filter (fun c => !(pathExists s.fs c.2))).map Prod.fst
  if missing_components.isEmpty then
    (record_validation s "integration_components" "PASSED"
      "All integration components present", none)
  else
    (record_issue s (.missingComponents missing_components) "CRITICAL"
      "Create missing component files", none)

def required_dirs : List Path :=
  [["swift-package", "Sources"], ["containerization"], ["integration"],
   ["tests"], ["optimization"], ["validation"]]

def pathToString (p : Path) : String := String.intercalate "/" p

def dirRepairDesc (d : Path) : String := "Created directory: " ++ pathToString d

/-- The loop body of `repair_missing_directories`; an uncaught mkdir error
aborts the loop keeping the mutations made so far. -/
def repairDirsGo : List Path → State → State × Option String
  | [], s => (s, none)
  | d :: rest, s =>
    if pathExists s.fs d then repairDirsGo rest s
    else
      match mkdirParents s.fs d with
      | .error e => (s, some e)
      | .ok fs' =>
        repairDirsGo rest
          { s with fs := fs', repairs_applied := s.repairs_applied ++ [dirRepairDesc d] }

/-- `repair_missing_directories`. -/
def repair_missing_directories (s : State) : State × Option String :=
  repairDirsGo required_dirs s

def composeFilePath : Path := ["containerization", "docker-compose.bridge.yml"]

def composeRepairDesc : String := "Created docker-compose.bridge.yml"

def basic_compose : String :=
  "version: '3.8'\nservices:\n  metabase-bridge:\n    build: .\n    ports:\n      - \"3000:3000\"\n    environment:\n      - METABASE_BRIDGE_CONFIG=/app/config/bridge.json\n      - METABASE_URL=http://localhost:3000\n"

/-- `repair_configuration_files`: write a default compose file when missing. -/
def repair_configuration_files (s : State) : State × Option String :=
  if pathExists s.fs composeFilePath then (s, none)
  else
    match writeFile s.fs composeFilePath basic_compose with
    | .error e => (s, some e)
    | .ok fs' =>
      ({ s with fs := fs', repairs_applied := s.repairs_applied ++ [composeRepairDesc] }, none)

/-- `apply_automatic_repairs`: directories first, then configuration files;
an exception from the first helper propagates, skipping the second. -/
def apply_automatic_repairs (s : State) : State × Option String :=
  match repair_missing_directories s with
  | (s1, some e) => (s1, some e)
  | (s1, none) => repair_configuration_files s1

/-- The `"PASSED"` count of `calculate_overall_health`. -/
def countPassed (vr : List (String × VRecord)) : Nat :=
  (vr.filter (fun r => r.2.status == "PASSED")).length

/-- `calculate_overall_health`, with float arithmetic modelled over `ℚ`. -/
def calculate_overall_health (vr : List (String × VRecord)) : String :=
  if vr.length = 0 then "UNKNOWN"
  else
    let health_percentage : ℚ := ((countPassed vr : ℚ) / (vr.length : ℚ)) * 100
    if health_percentage ≥ 90 then "EXCELLENT"
    else if health_percentage ≥ 70 then "GOOD"
    else if health_percentage ≥ 50 then "FAIR"
    else "POOR"

/-- Chain a step returning `State × Option String` with error propagation. -/
def andThen (r : State × Option String) (f : State → State × Option String) :
    State × Option String :=
  match r with
  | (s, some e) => (s, some e)
  | (s, none) => f s

/-- The four validator calls of `run_validation_and_repair`, in order. -/
def run_all_validations (s : State) : State × Option String :=
  andThen (validate_swift_package_structure s) (fun s1 =>
    andThen (validate_containerization s1) (fun s2 =>
      andThen (validate_api_alignment s2) (fun s3 =>
        validate_integration_components s3)))

structure Report where
  validation_results : List (String × VRecord)
  repairs_applied : List String
  issues_found : List Issue
  overall_health : String
deriving DecidableEq

/-- `run_validation_and_repair`: validations, repairs, then the report; an
uncaught exception anywhere aborts the run with no report. -/
def run_validation_and_repair (s : State) : Except String Report :=
  match run_all_validations s with
  | (_, some e) => .error e
  | (s4, none) =>
    match apply_automatic_repairs s4 with
    | (_, some e) => .error e
    | (s5, none) =>
      .ok ⟨s5.validation_results, s5.repairs_applied, s5.issues_found,
           calculate_overall_health s5.validation_results⟩

/-! ## Spec-side definitions and claim theorems -/

set_option maxRecDepth 100000

/-- Spec-side tier map (refinement target), following the spec's words:
inclusive lower bounds, `≥90 → EXCELLENT, ≥70 → GOOD, ≥50 → FAIR, else POOR`. -/
def specTierOfPercentage (pct : ℚ) : String :=
  if pct ≥ 90 then "EXCELLENT"
  else if pct ≥ 70 then "GOOD"
  else if pct ≥ 50 then "FAIR"
  else "POOR"

/-- A validation mapping with `total` entries whose first `passed` are PASSED. -/
def mkMapping (passed total : Nat) : List (String × VRecord) :=
  (List.range total).map
    (fun i => (toString i, ⟨if i < passed then "PASSED" else "FAILED", "msg"⟩))

/-- C7: when the ValidationRecord mapping is empty (zero rules evaluated),
`calculate_overall_health` returns the indeterminate tier UNKNOWN. -/
theorem empty_mapping_health_unknown : calculate_overall_health [] = "UNKNOWN" := rfl

/-- C1: for every nonempty ValidationRecord mapping, the health tier computed
by `calculate_overall_health` is exactly the spec's inclusive-lower-bound map
of `passed / total * 100`; in particular 9/10 yields EXCELLENT, 7/10 GOOD,
5/10 FAIR and 4/10 POOR. -/
theorem calculate_overall_health_spec :
    (∀ vr : List (String × VRecord), vr ≠ [] →
      calculate_overall_health vr =
        specTierOfPercentage (((countPassed vr : ℚ) / (vr.length : ℚ)) * 100)) ∧
    calculate_overall_health (mkMapping 9 10) = "EXCELLENT" ∧
    calculate_overall_health (mkMapping 7 10) = "GOOD" ∧
    calculate_overall_health (mkMapping 5 10) = "FAIR" ∧
    calculate_overall_health (mkMapping 4 10) = "POOR" := by
  have huniv : ∀ vr : List (String × VRecord), vr ≠ [] →
      calculate_overall_health vr =
        specTierOfPercentage (((countPassed vr : ℚ) / (vr.length : ℚ)) * 100) := by
    intro vr h
    have hlen : vr.length ≠ 0 := by simpa using h
    simp [calculate_overall_health, specTierOfPercentage, hlen]
  refine ⟨huniv, ?_, ?_, ?_, ?_⟩
  · rw [huniv (mkMapping 9 10) (by decide)]
    have h1 : countPassed (mkMapping 9 10) = 9 := by decide
    have h2 : (mkMapping 9 10).length = 10 := by decide
    rw [h1, h2]; norm_num [specTierOfPercentage]
  · rw [huniv (mkMapping 7 10) (by decide)]
    have h1 : countPassed (mkMapping 7 10) = 7 := by decide
    have h2 : (mkMapping 7 10).length = 10 := by decide
    rw [h1, h2]; norm_num [specTierOfPercentage]
  · rw [huniv (mkMapping 5 10) (by decide)]
    have h1 : countPassed (mkMapping 5 10) = 5 := by decide
    have h2 : (mkMapping 5 10).length = 10 := by decide
    rw [h1, h2]; norm_num [specTierOfPercentage]
  · rw [huniv (mkMapping 4 10) (by decide)]
    have h1 : countPassed (mkMapping 4 10) = 4 := by decide
    have h2 : (mkMapping 4 10).length = 10 := by decide
    rw [h1, h2]; norm_num [specTierOfPercentage]

/-- Witness for C1 at a concrete nonempty mapping. -/
theorem calculate_overall_health_spec_witness :
    calculate_overall_health (mkMapping 9 10) =
      specTierOfPercentage
        (((countPassed (mkMapping 9 10) : ℚ) / ((mkMapping 9 10).length : ℚ)) * 100) :=
  calculate_overall_health_spec.1 (mkMapping 9 10) (by decide)

/-- C10: whenever Dockerfile.bridge exists and can be read, regardless of the
content, `validate_containerization` appends the containerization Issue and
never records a PASSED ValidationRecord: the pass condition requires every
check message to contain "configured", but the success message of the port
check, "Metabase port properly exposed", does not contain it. -/
theorem containerization_never_passes (s : State) (content : String)
    (hp : pathExists s.fs dockerfilePath = true)
    (hr : readFile s.fs dockerfilePath = .ok content) :
    validate_containerization s =
      ({ s with issues_found := s.issues_found ++
          [⟨.containerizationIssues, "HIGH", "Fix Dockerfile configuration"⟩] }, none) := by
  have hall : (dockerfile_checks content).all
      (fun check => strContains check "configured") = false := by
    cases h1 : strContains content "FROM swift:5.9-focal as builder" <;>
      cases h2 : strContains content "USER metabase" <;>
        cases h3 : strContains content "HEALTHCHECK" <;>
          cases h4 : strContains content "EXPOSE 3000" <;>
            simp [dockerfile_checks, h1, h2, h3, h4] <;> decide
  simp [validate_containerization, hp, hr, hall, record_issue]

/-- A Dockerfile satisfying all four content checks of the source. -/
def goodDockerfileContent : String :=
  "FROM swift:5.9-focal as builder\nUSER metabase\nHEALTHCHECK\nEXPOSE 3000"

def goodDockerfileFS : FS := ⟨[], [(dockerfilePath, goodDockerfileContent)], [], []⟩

/-- Witness for C10: even a Dockerfile passing all four checks yields an Issue. -/
theorem containerization_never_passes_witness :
    validate_containerization ⟨goodDockerfileFS, [], [], []⟩ =
      (⟨goodDockerfileFS, [], [],
        [⟨.containerizationIssues, "HIGH", "Fix Dockerfile configuration"⟩]⟩, none) := by
  have h := containerization_never_passes ⟨goodDockerfileFS, [], [], []⟩
    goodDockerfileContent (by decide) (by rfl)
  simpa using h

/-- C6: when the foundational artifact of a rule is absent (Package.swift for
the Swift-package rule, Dockerfile.bridge for the containerization rule) the
validator appends exactly one CRITICAL Issue for that rule and returns at
once, skipping all dependent content sub-checks: nothing else in the state
changes and no ValidationRecord is written. -/
theorem missing_foundational_artifact_short_circuit (s : State) :
    (pathExists s.fs packageSwiftPath = false →
      validate_swift_package_structure s =
        ({ s with issues_found := s.issues_found ++
            [⟨.packageSwiftMissing, "CRITICAL", "Create Package.swift"⟩] }, none)) ∧
    (pathExists s.fs dockerfilePath = false →
      validate_containerization s =
        ({ s with issues_found := s.issues_found ++
            [⟨.dockerfileMissing, "CRITICAL", "Create containerization/Dockerfile.bridge"⟩] },
         none)) := by
  constructor
  · intro h; simp [validate_swift_package_structure, h, record_issue]
  · intro h; simp [validate_containerization, h, record_issue]

/-- Witness for C6 at the empty artifact tree. -/
theorem missing_foundational_artifact_short_circuit_witness :
    validate_swift_package_structure ⟨⟨[], [], [], []⟩, [], [], []⟩ =
      (⟨⟨[], [], [], []⟩, [], [],
        [⟨.packageSwiftMissing, "CRITICAL", "Create Package.swift"⟩]⟩, none) := by
  have h := (missing_foundational_artifact_short_circuit ⟨⟨[], [], [], []⟩, [], [], []⟩).1
    (by decide)
  simpa using h

/-- Recognizer for the Issue of the package-elements content check. -/
def isMissingElementsIssue (i : Issue) : Bool :=
  match i.desc with
  | .missingPackageElements _ => true
  | _ => false

/-- Recognizer for the Issue of the API-endpoints content check. -/
def isMissingEndpointsIssue (i : Issue) : Bool :=
  match i.desc with
  | .missingApiEndpoints _ => true
  | _ => false

/-- C8: a content-check rule that finds several required keywords missing
records exactly one Issue carrying the whole list of missing keywords, never
one Issue per keyword — shown for the package-elements check of
`validate_swift_package_structure` and the endpoint check of
`validate_api_alignment`, run on a fresh bookkeeping state. -/
theorem content_check_single_issue (fs : FS) (content : String) :
    (pathExists fs packageSwiftPath = true →
      readFile fs packageSwiftPath = .ok content →
      2 ≤ (required_elements.filter (fun el => !(strContains content el))).length →
      (validate_swift_package_structure ⟨fs, [], [], []⟩).1.issues_found.filter
          isMissingElementsIssue =
        [⟨.missingPackageElements
            (required_elements.filter (fun el => !(strContains content el))),
          "HIGH", "Add missing package elements"⟩]) ∧
    (pathExists fs metabaseBridgePath = true →
      readFile fs metabaseBridgePath = .ok content →
      2 ≤ (required_endpoints.filter (fun ep => !(strContains content ep))).length →
      (validate_api_alignment ⟨fs, [], [], []⟩).1.issues_found.filter
          isMissingEndpointsIssue =
        [⟨.missingApiEndpoints
            (required_endpoints.filter (fun ep => !(strContains content ep))),
          "MEDIUM", "Implement missing API endpoints"⟩]) := by
  constructor
  · intro hp hr hm
    have hne : (required_elements.filter (fun el => !(strContains content el))).isEmpty
        = false := by
      cases hl : required_elements.filter (fun el => !(strContains content el)) with
      | nil => rw [hl] at hm; simp at hm
      | cons a t => rfl
    cases hmb : strContains content "MetabaseBridge" <;>
      simp [validate_swift_package_structure, hp, hr, hne, hmb, record_issue,
        record_validation, isMissingElementsIssue]
  · intro hp hr hm
    have hne : (required_endpoints.filter (fun ep => !(strContains content ep))).isEmpty
        = false := by
      cases hl : required_endpoints.filter (fun ep => !(strContains content ep)) with
      | nil => rw [hl] at hm; simp at hm
      | cons a t => rfl
    simp [validate_api_alignment, hp, hr, hne, record_issue, isMissingEndpointsIssue]

/-- A filesystem whose Package.swift is empty, so every keyword is missing. -/
def emptyPackageFS : FS := ⟨[], [(packageSwiftPath, "")], [], []⟩

/-- Witness for C8: an empty Package.swift misses all four elements and gets
exactly one Issue listing the four of them. -/
theorem content_check_single_issue_witness :
    (validate_swift_package_structure ⟨emptyPackageFS, [], [], []⟩).1.issues_found.filter
        isMissingElementsIssue =
      [⟨.missingPackageElements
          (required_elements.filter (fun el => !(strContains "" el))),
        "HIGH", "Add missing package elements"⟩] :=
  (content_check_single_issue emptyPackageFS "").1 (by decide) (by rfl) (by decide)

/-! Helper lemmas: the validators never touch the filesystem component, and
`validate_swift_package_structure` never raises (its body is inside
`try/except`). -/

theorem swift_fs_preserved (t : State) :
    (validate_swift_package_structure t).1.fs = t.fs := by
  unfold validate_swift_package_structure
  split
  · rfl
  · split
    · rfl
    · dsimp only
      split_ifs <;> rfl

theorem swift_no_error (t : State) :
    (validate_swift_package_structure t).2 = none := by
  unfold validate_swift_package_structure
  split
  · rfl
  · split
    · rfl
    · rfl

theorem containerization_fs_preserved (t : State) :
    (validate_containerization t).1.fs = t.fs := by
  unfold validate_containerization
  split
  · rfl
  · split
    · rfl
    · split_ifs <;> rfl

theorem api_fs_preserved (t : State) :
    (validate_api_alignment t).1.fs = t.fs := by
  unfold validate_api_alignment
  split
  · rfl
  · split
    · rfl
    · dsimp only
      split_ifs <;> rfl

theorem integration_fs_preserved (t : State) :
    (validate_integration_components t).1.fs = t.fs := by
  unfold validate_integration_components
  dsimp only
  split_ifs <;> rfl

theorem andThen_fs_preserved (t : State) (r : State × Option String)
    (f : State → State × Option String)
    (hr : r.1.fs = t.fs) (hf : ∀ u : State, (f u).1.fs = u.fs) :
    (andThen r f).1.fs = t.fs := by
  unfold andThen
  rcases r with ⟨u, e⟩
  cases e
  · rw [hf u]; exact hr
  · exact hr

/-- C9: the evaluation phase is read-only — each `validate_*` method, and the
whole validation pass, leaves the artifact tree unchanged; only the Repair
Engine mutates it. -/
theorem evaluation_read_only (s : State) :
    (validate_swift_package_structure s).1.fs = s.fs ∧
    (validate_containerization s).1.fs = s.fs ∧
    (validate_api_alignment s).1.fs = s.fs ∧
    (validate_integration_components s).1.fs = s.fs ∧
    (run_all_validations s).1.fs = s.fs := by
  refine ⟨swift_fs_preserved s, containerization_fs_preserved s, api_fs_preserved s,
    integration_fs_preserved s, ?_⟩
  unfold run_all_validations
  apply andThen_fs_preserved s _ _ (swift_fs_preserved s)
  intro u1
  apply andThen_fs_preserved u1 _ _ (containerization_fs_preserved u1)
  intro u2
  apply andThen_fs_preserved u2 _ _ (api_fs_preserved u2)
  intro u3
  exact integration_fs_preserved u3

/-! Helper lemmas for the Repair Engine: created artifacts exist afterwards,
and existing artifacts are never removed. -/

theorem pathExists_iff (fs : FS) (p : Path) :
    pathExists fs p = true ↔ p ∈ fs.dirs ∨ p ∈ fs.files.map Prod.fst := by
  simp [pathExists]

theorem self_mem_pathPrefixes (p : Path) (hp : p ≠ []) : p ∈ pathPrefixes p := by
  rcases p with _ | ⟨a, t⟩
  · exact absurd rfl hp
  · refine List.mem_map.mpr ⟨t.length, ?_, ?_⟩
    · simp
    · simp

theorem mkdirParents_ok_mono (fs : FS) (p : Path) (fs' : FS)
    (h : mkdirParents fs p = .ok fs') (q : Path) (hq : pathExists fs q = true) :
    pathExists fs' q = true := by
  unfold mkdirParents at h
  split at h
  · exact absurd h (by simp)
  · cases h
    rw [pathExists_iff] at hq ⊢
    rcases hq with hd | hf
    · exact Or.inl (List.mem_append.mpr (Or.inl hd))
    · exact Or.inr hf

theorem mkdirParents_ok_exists (fs : FS) (p : Path) (fs' : FS) (hp : p ≠ [])
    (h : mkdirParents fs p = .ok fs') : pathExists fs' p = true := by
  cases hex : pathExists fs p
  · unfold mkdirParents at h
    split at h
    · exact absurd h (by simp)
    · cases h
      rw [pathExists_iff]
      left
      refine List.mem_append.mpr (Or.inr ?_)
      refine List.mem_filter.mpr ⟨self_mem_pathPrefixes p hp, ?_⟩
      simp [hex]
  · exact mkdirParents_ok_mono fs p fs' h p hex

theorem writeFile_ok_mono (fs : FS) (p : Path) (c : String) (fs' : FS)
    (h : writeFile fs p c = .ok fs') (q : Path) (hq : pathExists fs q = true) :
    pathExists fs' q = true := by
  unfold writeFile at h
  split at h
  · exact absurd h (by simp)
  · cases h
    rw [pathExists_iff] at hq ⊢
    rcases hq with hd | hf
    · exact Or.inl hd
    · right
      rcases List.mem_map.mp hf with ⟨e, he, rfl⟩
      by_cases hep : e.1 = p
      · exact List.mem_map.mpr ⟨(p, c), List.mem_cons_self _ _, hep.symm⟩
      · refine List.mem_map.mpr ⟨e, List.mem_cons_of_mem _ ?_, rfl⟩
        refine List.mem_filter.mpr ⟨he, ?_⟩
        simp [hep]

theorem writeFile_ok_exists (fs : FS) (p : Path) (c : String) (fs' : FS)
    (h : writeFile fs p c = .ok fs') : pathExists fs' p = true := by
  unfold writeFile at h
  split at h
  · exact absurd h (by simp)
  · cases h
    rw [pathExists_iff]
    exact Or.inr (List.mem_map.mpr ⟨(p, c), List.mem_cons_self _ _, rfl⟩)

/-- Soundness of the directory-repair loop: existing artifacts are preserved,
on success every listed directory exists afterwards, and every Repair entry
was either there before or names a directory that exists afterwards. -/
theorem repairDirsGo_sound (ds : List Path) : ∀ (s s' : State) (e? : Option String),
    (∀ d ∈ ds, d ≠ []) → repairDirsGo ds s = (s', e?) →
    (∀ q, pathExists s.fs q = true → pathExists s'.fs q = true) ∧
    (e? = none → ∀ d ∈ ds, pathExists s'.fs d = true) ∧
    (∀ r ∈ s'.repairs_applied,
      r ∈ s.repairs_applied ∨ ∃ d ∈ ds, r = dirRepairDesc d ∧ pathExists s'.fs d = true) := by
  induction ds with
  | nil =>
    intro s s' e? hne h
    unfold repairDirsGo at h
    injection h with h1 h2
    subst h1; subst h2
    exact ⟨fun q hq => hq, fun _ d hd => absurd hd (List.not_mem_nil d),
      fun r hr => Or.inl hr⟩
  | cons d rest ih =>
    intro s s' e? hne h
    unfold repairDirsGo at h
    by_cases hex : pathExists s.fs d = true
    · rw [if_pos hex] at h
      obtain ⟨mono, post, rep⟩ := ih s s' e? (fun x hx => hne x (List.mem_cons_of_mem _ hx)) h
      refine ⟨mono, ?_, ?_⟩
      · intro he x hx
        rcases List.mem_cons.mp hx with rfl | hx'
        · exact mono x hex
        · exact post he x hx'
      · intro r hr
        rcases rep r hr with h1 | ⟨d', hd', hq⟩
        · exact Or.inl h1
        · exact Or.inr ⟨d', List.mem_cons_of_mem _ hd', hq⟩
    · rw [if_neg hex] at h
      cases hmk : mkdirParents s.fs d with
      | error e =>
        rw [hmk] at h
        injection h with h1 h2
        subst h1; subst h2
        exact ⟨fun q hq => hq, fun he => Option.noConfusion he, fun r hr => Or.inl hr⟩
      | ok fs' =>
        rw [hmk] at h
        obtain ⟨mono, post, rep⟩ := ih
          { s with fs := fs', repairs_applied := s.repairs_applied ++ [dirRepairDesc d] }
          s' e? (fun x hx => hne x (List.mem_cons_of_mem _ hx)) h
        have hd0 : d ≠ [] := hne d (List.mem_cons_self _ _)
        have hdex : pathExists fs' d = true := mkdirParents_ok_exists s.fs d fs' hd0 hmk
        refine ⟨?_, ?_, ?_⟩
        · intro q hq
          exact mono q (mkdirParents_ok_mono s.fs d fs' hmk q hq)
        · intro he x hx
          rcases List.mem_cons.mp hx with rfl | hx'
          · exact mono x hdex
          · exact post he x hx'
        · intro r hr
          rcases rep r hr with h1 | ⟨d', hd', hq⟩
          · rcases List.mem_append.mp h1 with h2 | h2
            · exact Or.inl h2
            · have hrd : r = dirRepairDesc d := by simpa using h2
              exact Or.inr ⟨d, List.mem_cons_self _ _, hrd, mono d hdex⟩
          · exact Or.inr ⟨d', List.mem_cons_of_mem _ hd', hq⟩

/-- On a state where every listed directory already exists the loop is a
no-op (check-before-create). -/
theorem repairDirsGo_noop (ds : List Path) : ∀ s : State,
    (∀ d ∈ ds, pathExists s.fs d = true) → repairDirsGo ds s = (s, none) := by
  induction ds with
  | nil => intro s _; rfl
  | cons d rest ih =>
    intro s hall
    unfold repairDirsGo
    rw [if_pos (hall d (List.mem_cons_self _ _))]
    exact ih s (fun x hx => hall x (List.mem_cons_of_mem _ hx))

/-- Soundness of `repair_configuration_files`: existing artifacts preserved;
on success the compose file exists; Repair entries are old or name the
created compose file. -/
theorem repair_configuration_files_sound (s s' : State) (e? : Option String)
    (h : repair_configuration_files s = (s', e?)) :
    (∀ q, pathExists s.fs q = true → pathExists s'.fs q = true) ∧
    (e? = none → pathExists s'.fs composeFilePath = true) ∧
    (∀ r ∈ s'.repairs_applied,
      r ∈ s.repairs_applied ∨
        (r = composeRepairDesc ∧ pathExists s'.fs composeFilePath = true)) := by
  unfold repair_configuration_files at h
  by_cases hex : pathExists s.fs composeFilePath = true
  · rw [if_pos hex] at h
    injection h with h1 h2
    subst h1; subst h2
    exact ⟨fun q hq => hq, fun _ => hex, fun r hr => Or.inl hr⟩
  · rw [if_neg hex] at h
    cases hw : writeFile s.fs composeFilePath basic_compose with
    | error e =>
      rw [hw] at h
      injection h with h1 h2
      subst h1; subst h2
      exact ⟨fun q hq => hq, fun he => Option.noConfusion he, fun r hr => Or.inl hr⟩
    | ok fs' =>
      rw [hw] at h
      injection h with h1 h2
      subst h1; subst h2
      have hcex : pathExists fs' composeFilePath = true :=
        writeFile_ok_exists s.fs composeFilePath basic_compose fs' hw
      refine ⟨?_, fun _ => hcex, ?_⟩
      · intro q hq
        exact writeFile_ok_mono s.fs composeFilePath basic_compose fs' hw q hq
      · intro r hr
        rcases List.mem_append.mp hr with h2 | h2
        · exact Or.inl h2
        · exact Or.inr ⟨by simpa using h2, hcex⟩

/-- When the compose file already exists the configuration repair is a no-op. -/
theorem repair_configuration_files_noop (s : State)
    (hex : pathExists s.fs composeFilePath = true) :
    repair_configuration_files s = (s, none) := by
  unfold repair_configuration_files
  rw [if_pos hex]

/-- If the directory loop aborts with an error, re-running it from the
resulting state aborts at the same point with the same error and no change. -/
theorem repairDirsGo_error_idem (ds : List Path) : ∀ (s s' : State) (e : String),
    (∀ d ∈ ds, d ≠ []) → repairDirsGo ds s = (s', some e) →
    repairDirsGo ds s' = (s', some e) := by
  induction ds with
  | nil =>
    intro s s' e _ h
    unfold repairDirsGo at h
    injection h with h1 h2
    exact Option.noConfusion h2
  | cons d rest ih =>
    intro s s' e hne h
    have hne' : ∀ x ∈ rest, x ≠ [] := fun x hx => hne x (List.mem_cons_of_mem _ hx)
    unfold repairDirsGo at h
    by_cases hex : pathExists s.fs d = true
    · rw [if_pos hex] at h
      obtain ⟨mono, _, _⟩ := repairDirsGo_sound rest s s' (some e) hne' h
      unfold repairDirsGo
      rw [if_pos (mono d hex)]
      exact ih s s' e hne' h
    · rw [if_neg hex] at h
      cases hmk : mkdirParents s.fs d with
      | error e' =>
        rw [hmk] at h
        injection h with h1 h2
        injection h2 with h3
        subst h1; subst h3
        unfold repairDirsGo
        rw [if_neg hex, hmk]
      | ok fs' =>
        rw [hmk] at h
        obtain ⟨mono, _, _⟩ :=
          repairDirsGo_sound rest
            { s with fs := fs', repairs_applied := s.repairs_applied ++ [dirRepairDesc d] }
            s' (some e) hne' h
        have hd0 : d ≠ [] := hne d (List.mem_cons_self _ _)
        have hdex : pathExists s'.fs d = true :=
          mono d (mkdirParents_ok_exists s.fs d fs' hd0 hmk)
        unfold repairDirsGo
        rw [if_pos hdex]
        exact ih _ s' e hne' h

/-- A failing configuration repair leaves the state untouched. -/
theorem repair_configuration_files_error_state (s s' : State) (e : String)
    (h : repair_configuration_files s = (s', some e)) : s' = s := by
  unfold repair_configuration_files at h
  by_cases hex : pathExists s.fs composeFilePath = true
  · rw [if_pos hex] at h
    injection h with h1 h2
    exact Option.noConfusion h2
  · rw [if_neg hex] at h
    cases hw : writeFile s.fs composeFilePath basic_compose with
    | error e' =>
      rw [hw] at h
      injection h with h1 h2
      exact h1.symm
    | ok fs' =>
      rw [hw] at h
      injection h with h1 h2
      exact Option.noConfusion h2

/-- C2: the Repair Engine is idempotent — for every artifact state, running
`apply_automatic_repairs` a second time on the state produced by the first
run returns that state unchanged with the same outcome: the artifact tree is
identical to its state after the first run and zero new Repair entries are
appended (check-before-create semantics). -/
theorem apply_automatic_repairs_idempotent (s : State) :
    apply_automatic_repairs (apply_automatic_repairs s).1 = apply_automatic_repairs s := by
  cases hd : repair_missing_directories s with
  | mk sA eA =>
    cases eA with
    | some e =>
      have happ : apply_automatic_repairs s = (sA, some e) := by
        unfold apply_automatic_repairs
        rw [hd]
      rw [happ]
      dsimp only
      have hd2 : repair_missing_directories sA = (sA, some e) :=
        repairDirsGo_error_idem required_dirs s sA e (by decide) hd
      unfold apply_automatic_repairs
      rw [hd2]
    | none =>
      cases hc : repair_configuration_files sA with
      | mk s1 e1 =>
        have happ : apply_automatic_repairs s = (s1, e1) := by
          unfold apply_automatic_repairs
          rw [hd]
          exact hc
        rw [happ]
        obtain ⟨monoD, postD, _⟩ := repairDirsGo_sound required_dirs s sA none (by decide) hd
        cases e1 with
        | none =>
          obtain ⟨monoC, postC, _⟩ := repair_configuration_files_sound sA s1 none hc
          have hdirs : ∀ d ∈ required_dirs, pathExists s1.fs d = true :=
            fun d hd' => monoC d (postD rfl d hd')
          dsimp only
          have hnoop : repair_missing_directories s1 = (s1, none) :=
            repairDirsGo_noop required_dirs s1 hdirs
          unfold apply_automatic_repairs
          rw [hnoop]
          exact repair_configuration_files_noop s1 (postC rfl)
        | some e =>
          have hs1 : s1 = sA := repair_configuration_files_error_state sA s1 e hc
          subst hs1
          have hdirs : ∀ d ∈ required_dirs, pathExists s1.fs d = true :=
            fun d hd' => postD rfl d hd'
          dsimp only
          have hnoop : repair_missing_directories s1 = (s1, none) :=
            repairDirsGo_noop required_dirs s1 hdirs
          unfold apply_automatic_repairs
          rw [hnoop]
          exact hc

/-- A tree where creating the swift-package directory is permission-denied. -/
def writeDeniedFS : FS := ⟨[], [], [], [["swift-package"]]⟩

/-- Counterexample to C3 as stated: with directory creation denied, the
Repair Engine (which has no try/except) returns the PermissionError to its
caller instead of swallowing it. -/
theorem repair_failure_raises_to_caller :
    (apply_automatic_repairs ⟨writeDeniedFS, [], [], []⟩).2 = some "PermissionError" := by
  decide

/-- C3 amended: a repair attempt that cannot complete propagates its
exception to the caller of the Repair Engine, aborting the repair phase;
the failed repair is omitted from the Repair sequence — every newly appended
Repair entry names an artifact that exists in the final tree. -/
theorem repair_failure_propagates_and_is_omitted :
    (∀ (s s' : State) (e : String),
      repair_missing_directories s = (s', some e) →
      apply_automatic_repairs s = (s', some e)) ∧
    (∀ (s s' : State) (e? : Option String),
      apply_automatic_repairs s = (s', e?) →
      ∀ r ∈ s'.repairs_applied,
        r ∈ s.repairs_applied ∨
        (∃ d ∈ required_dirs, r = dirRepairDesc d ∧ pathExists s'.fs d = true) ∨
        (r = composeRepairDesc ∧ pathExists s'.fs composeFilePath = true)) := by
  constructor
  · intro s s' e h
    unfold apply_automatic_repairs
    rw [h]
  · intro s s' e? h r hr
    unfold apply_automatic_repairs at h
    cases hd : repair_missing_directories s with
    | mk sA eA =>
      rw [hd] at h
      obtain ⟨monoD, _, repD⟩ := repairDirsGo_sound required_dirs s sA eA (by decide) hd
      cases eA with
      | some e =>
        injection h with h1 h2
        subst h1
        rcases repD r hr with h1 | ⟨d, hdm, hrd, hex⟩
        · exact Or.inl h1
        · exact Or.inr (Or.inl ⟨d, hdm, hrd, hex⟩)
      | none =>
        obtain ⟨monoC, _, repC⟩ := repair_configuration_files_sound sA s' e? h
        rcases repC r hr with h1 | ⟨hrc, hex⟩
        · rcases repD r h1 with h2 | ⟨d, hdm, hrd, hex'⟩
          · exact Or.inl h2
          · exact Or.inr (Or.inl ⟨d, hdm, hrd, monoC d hex'⟩)
        · exact Or.inr (Or.inr ⟨hrc, hex⟩)

/-- Witness for the amended C3 at a concrete permission-denied tree. -/
theorem repair_failure_propagates_and_is_omitted_witness :
    apply_automatic_repairs ⟨writeDeniedFS, [], [], []⟩ =
      (⟨writeDeniedFS, [], [], []⟩, some "PermissionError") :=
  repair_failure_propagates_and_is_omitted.1 ⟨writeDeniedFS, [], [], []⟩
    ⟨writeDeniedFS, [], [], []⟩ "PermissionError" (by decide)

/-- A tree whose Package.swift exists but is read-denied. -/
def readDeniedPkgFS : FS := ⟨[], [(packageSwiftPath, "x")], [packageSwiftPath], []⟩

/-- Counterexample to C5 as stated: a read failure of Package.swift (after
its existence check passed) does NOT propagate — the try/except of
`validate_swift_package_structure` converts it into a recorded HIGH Issue
and the run still assembles a full report. -/
theorem read_failure_converted_to_issue :
    (validate_swift_package_structure ⟨readDeniedPkgFS, [], [], []⟩).2 = none ∧
    (validate_swift_package_structure ⟨readDeniedPkgFS, [], [], []⟩).1.issues_found =
      [⟨.packageValidationError "PermissionError", "HIGH", "Fix Package.swift syntax"⟩] ∧
    (run_validation_and_repair ⟨readDeniedPkgFS, [], [], []⟩).isOk = true := by
  refine ⟨rfl, rfl, by decide⟩

/-- C5 amended: an I/O failure while reading Dockerfile.bridge propagates out
of the run and aborts report assembly; one while reading MetabaseBridge.swift
propagates out of `validate_api_alignment`, and any validator error aborts
the run with no report; but an I/O failure while reading Package.swift is
caught by the try/except of `validate_swift_package_structure`, recorded
as a HIGH Issue, and is not fatal. -/
theorem read_failure_propagation (s : State) (e : String) :
    (pathExists s.fs dockerfilePath = true →
      readFile s.fs dockerfilePath = .error e →
      run_validation_and_repair s = .error e) ∧
    (pathExists s.fs metabaseBridgePath = true →
      readFile s.fs metabaseBridgePath = .error e →
      (validate_api_alignment s).2 = some e) ∧
    (∀ s4 : State, run_all_validations s = (s4, some e) →
      run_validation_and_repair s = .error e) ∧
    (pathExists s.fs packageSwiftPath = true →
      readFile s.fs packageSwiftPath = .error e →
      validate_swift_package_structure s =
        ({ s with issues_found := s.issues_found ++
            [⟨.packageValidationError e, "HIGH", "Fix Package.swift syntax"⟩] }, none)) := by
  refine ⟨?_, ?_, ?_, ?_⟩
  · intro hp hr
    have he := swift_no_error s
    have hfs := swift_fs_preserved s
    cases hsv : validate_swift_package_structure s with
    | mk s1 e1 =>
      rw [hsv] at he hfs
      simp only at he hfs
      subst he
      have hcont : validate_containerization s1 = (s1, some e) := by
        simp [validate_containerization, hfs, hp, hr]
      simp [run_validation_and_repair, run_all_validations, andThen, hsv, hcont]
  · intro hp hr
    simp [validate_api_alignment, hp, hr]
  · intro s4 h
    simp [run_validation_and_repair, h]
  · intro hp hr
    simp [validate_swift_package_structure, hp, hr, record_issue]

/-- A tree whose Dockerfile.bridge exists but is read-denied. -/
def readDeniedDockerFS : FS := ⟨[], [(dockerfilePath, "x")], [dockerfilePath], []⟩

/-- Witness for the amended C5: a read-denied Dockerfile aborts the run. -/
theorem read_failure_propagation_witness :
    run_validation_and_repair ⟨readDeniedDockerFS, [], [], []⟩ = .error "PermissionError" :=
  (read_failure_propagation ⟨readDeniedDockerFS, [], [], []⟩ "PermissionError").1
    (by decide) (by rfl)

/-- A PASSED ValidationRecord is present for component `c`. -/
def passedRecorded (s' : State) (c : String) : Prop :=
  ∃ r : VRecord, List.lookup c s'.validation_results = some r ∧ r.status = "PASSED"

/-- Issues attributable to the swift-package-structure rule: its own
keyword Issue, plus the foundational-artifact and read-error Issues that
short-circuit the whole method. -/
def issueCoversSwiftStructure : IssueDesc → Bool
  | .packageSwiftMissing => true
  | .packageValidationError _ => true
  | .missingPackageElements _ => true
  | _ => false

/-- Issues attributable to the metabase-bridge-component rule. -/
def issueCoversMetabaseBridge : IssueDesc → Bool
  | .packageSwiftMissing => true
  | .packageValidationError _ => true
  | .metabaseBridgeMissing => true
  | _ => false

def issueCoversContainerization : IssueDesc → Bool
  | .dockerfileMissing => true
  | .containerizationIssues => true
  | _ => false

def issueCoversApiAlignment : IssueDesc → Bool
  | .metabaseBridgeSwiftMissing => true
  | .missingApiEndpoints _ => true
  | _ => false

def issueCoversIntegration : IssueDesc → Bool
  | .missingComponents _ => true
  | _ => false

/-- Number of recorded Issues attributed to a rule. -/
def coveredIssues (s' : State) (covers : IssueDesc → Bool) : Nat :=
  (s'.issues_found.filter (fun i => covers i.desc)).length

/-- C4: on a fresh run context, each rule implemented by a `validate_*`
method ends with exactly one of the two outcomes — a PASSED
ValidationRecord, or at least one Issue attributed to it (the
foundational-artifact / read-error Issue counts for every rule of its
method) — never both, never neither; for the two validators whose read can
raise, under the hypothesis that the method returned without error. -/
theorem each_rule_exactly_one_outcome (fs : FS) :
    Xor' (passedRecorded (validate_swift_package_structure ⟨fs, [], [], []⟩).1
            "swift_package_structure")
         (0 < coveredIssues (validate_swift_package_structure ⟨fs, [], [], []⟩).1
            issueCoversSwiftStructure) ∧
    Xor' (passedRecorded (validate_swift_package_structure ⟨fs, [], [], []⟩).1
            "metabase_bridge_component")
         (0 < coveredIssues (validate_swift_package_structure ⟨fs, [], [], []⟩).1
            issueCoversMetabaseBridge) ∧
    ((validate_containerization ⟨fs, [], [], []⟩).2 = none →
      Xor' (passedRecorded (validate_containerization ⟨fs, [], [], []⟩).1 "containerization")
           (0 < coveredIssues (validate_containerization ⟨fs, [], [], []⟩).1
              issueCoversContainerization)) ∧
    ((validate_api_alignment ⟨fs, [], [], []⟩).2 = none →
      Xor' (passedRecorded (validate_api_alignment ⟨fs, [], [], []⟩).1 "api_alignment")
           (0 < coveredIssues (validate_api_alignment ⟨fs, [], [], []⟩).1
              issueCoversApiAlignment)) ∧
    Xor' (passedRecorded (validate_integration_components ⟨fs, [], [], []⟩).1
            "integration_components")
         (0 < coveredIssues (validate_integration_components ⟨fs, [], [], []⟩).1
            issueCoversIntegration) := by
  refine ⟨?_, ?_, ?_, ?_, ?_⟩
  · cases hp : pathExists fs packageSwiftPath
    · simp [validate_swift_package_structure, hp, record_issue, passedRecorded,
        coveredIssues, issueCoversSwiftStructure, Xor']
    · cases hr : readFile fs packageSwiftPath with
      | error e =>
        simp [validate_swift_package_structure, hp, hr, record_issue, passedRecorded,
          coveredIssues, issueCoversSwiftStructure, Xor']
      | ok content =>
        cases hm : (required_elements.filter (fun el => !(strContains content el))).isEmpty <;>
          cases hb : strContains content "MetabaseBridge" <;>
            simp [validate_swift_package_structure, hp, hr, hm, hb, record_issue,
              record_validation, passedRecorded, coveredIssues, issueCoversSwiftStructure,
              Xor', List.lookup]
  · cases hp : pathExists fs packageSwiftPath
    · simp [validate_swift_package_structure, hp, record_issue, passedRecorded,
        coveredIssues, issueCoversMetabaseBridge, Xor']
    · cases hr : readFile fs packageSwiftPath with
      | error e =>
        simp [validate_swift_package_structure, hp, hr, record_issue, passedRecorded,
          coveredIssues, issueCoversMetabaseBridge, Xor']
      | ok content =>
        cases hm : (required_elements.filter (fun el => !(strContains content el))).isEmpty <;>
          cases hb : strContains content "MetabaseBridge" <;>
            simp [validate_swift_package_structure, hp, hr, hm, hb, record_issue,
              record_validation, passedRecorded, coveredIssues, issueCoversMetabaseBridge,
              Xor', List.lookup]
  · intro herr
    cases hp : pathExists fs dockerfilePath
    · simp [validate_containerization, hp, record_issue, passedRecorded, coveredIssues,
        issueCoversContainerization, Xor']
    · cases hr : readFile fs dockerfilePath with
      | error e => simp [validate_containerization, hp, hr] at herr
      | ok content =>
        cases hall : (dockerfile_checks content).all
            (fun check => strContains check "configured") <;>
          simp [validate_containerization, hp, hr, hall, record_issue, record_validation,
            passedRecorded, coveredIssues, issueCoversContainerization, Xor', List.lookup]
  · intro herr
    cases hp : pathExists fs metabaseBridgePath
    · simp [validate_api_alignment, hp, record_issue, passedRecorded, coveredIssues,
        issueCoversApiAlignment, Xor']
    · cases hr : readFile fs metabaseBridgePath with
      | error e => simp [validate_api_alignment, hp, hr] at herr
      | ok content =>
        cases hm : (required_endpoints.filter (fun ep => !(strContains content ep))).isEmpty <;>
          simp [validate_api_alignment, hp, hr, hm, record_issue, record_validation,
            passedRecorded, coveredIssues, issueCoversApiAlignment, Xor', List.lookup]
  · cases hm : ((required_components.filter
        (fun c => !(pathExists fs c.2))).map Prod.fst).isEmpty <;>
      simp [validate_integration_components, hm, record_issue, record_validation,
        passedRecorded, coveredIssues, issueCoversIntegration, Xor', List.lookup]

/-- Witness for C4: the containerization rule on a concrete readable
Dockerfile, with the no-error hypothesis discharged. -/
theorem each_rule_exactly_one_outcome_witness :
    Xor' (passedRecorded (validate_containerization ⟨goodDockerfileFS, [], [], []⟩).1
            "containerization")
         (0 < coveredIssues (validate_containerization ⟨goodDockerfileFS, [], [], []⟩).1
            issueCoversContainerization) :=
  (each_rule_exactly_one_outcome goodDockerfileFS).2.2.1 (by rfl)

end ValidateAndRepair
